import Mathlib

/-!
# Verification of the titration pH engine

Shallow embedding of the acid-base titration component
(`components/TitrationExperiment.tsx`): the pH calculator `calculatePH`,
the indicator catalog `INDICATORS` with the color resolver
`getSolutionColor`, the curve sampler `graphPoints`, and the UI state
transitions of `TitrationExperiment`.  Machine floating-point arithmetic
is modelled by exact real arithmetic; `Math.log10` becomes
`Real.logb 10` and `Math.sqrt` becomes `Real.sqrt`.
-/

namespace Titration

open Real

/-- Source: `const ACID_VOL_INITIAL = 25; // mL`. -/
def ACID_VOL_INITIAL : ℝ := 25

/-- Source: `const ACID_CONC = 0.1; // M`. -/
def ACID_CONC : ℝ := 0.1

/-- Source: `const BASE_CONC = 0.1; // M`. -/
def BASE_CONC : ℝ := 0.1

/-- Source: `const KA_ACETIC = 1.8e-5;`. -/
def KA_ACETIC : ℝ := 1.8e-5

/-- Source: `const KB_AMMONIA = 1.8e-5;`. -/
def KB_AMMONIA : ℝ := 1.8e-5

/-- Source: `const KW = 1e-14;`. -/
def KW : ℝ := 1e-14

/-- Source: `type ElectrolyteType = 'strong' | 'weak';`. -/
inductive ElectrolyteType
  | strong
  | weak
deriving DecidableEq, Repr

/-- Source: `type IndicatorType = 'phenolphthalein' | 'methylRed' | 'bromothymolBlue';`. -/
inductive IndicatorType
  | phenolphthalein
  | methylRed
  | bromothymolBlue
deriving DecidableEq, Repr

/-- Source: `interface IndicatorInfo`. -/
structure IndicatorInfo where
  name : String
  rangeLow : ℝ
  rangeHigh : ℝ
  colorLow : String
  colorHigh : String
  label : String

/-- Source: `const INDICATORS: Record<IndicatorType, IndicatorInfo> = ...`. -/
def INDICATORS : IndicatorType → IndicatorInfo
  | .phenolphthalein =>
    { name := "酚酞", rangeLow := 8.2, rangeHigh := 10.0,
      colorLow := "#ffffff", colorHigh := "#ec4899", label := "8.2 - 10.0" }
  | .methylRed =>
    { name := "甲基紅", rangeLow := 4.4, rangeHigh := 6.2,
      colorLow := "#ef4444", colorHigh := "#eab308", label := "4.4 - 6.2" }
  | .bromothymolBlue =>
    { name := "溴瑞香草芬藍", rangeLow := 6.0, rangeHigh := 7.6,
      colorLow := "#eab308", colorHigh := "#3b82f6", label := "6.0 - 7.6" }

/-- Source: `const calculatePH = (vBase, acidType, baseType) => ...`.
The body of the source function is a sequence of four guarded groups of
early `return` statements followed by a trailing `return 7`.  Each group
is modelled here by nested `if`s producing `some r` at every source
`return r`; a group whose internal guards all fail (and hence falls
through every remaining group, since the group conditions on
`(acidType, baseType)` are mutually exclusive) produces `none`, which
corresponds to reaching the trailing `return 7` (see `calculatePH`). -/
noncomputable def calculatePHOpt (vBase : ℝ)
    (acidType baseType : ElectrolyteType) : Option ℝ :=
  let vAcid := ACID_VOL_INITIAL
  let cAcid := ACID_CONC
  let cBase := BASE_CONC
  let molesA := vAcid * cAcid
  let molesB := vBase * cBase
  let totalVol := vAcid + vBase
  -- 1. Strong Acid + Strong Base
  if acidType = .strong ∧ baseType = .strong then
    if molesB < molesA then
      some (-Real.logb 10 ((molesA - molesB) / totalVol))
    else if |molesB - molesA| < 1e-9 then
      some 7.0
    else
      some (14.0 - -Real.logb 10 ((molesB - molesA) / totalVol))
  -- 2. Weak Acid + Strong Base
  else if acidType = .weak ∧ baseType = .strong then
    if vBase = 0 then
      some (-Real.logb 10 (Real.sqrt (KA_ACETIC * cAcid)))
    else if molesB < molesA then
      some (-Real.logb 10 KA_ACETIC + Real.logb 10 (molesB / (molesA - molesB)))
    else if |molesB - molesA| < 1e-9 then
      some (14.0 - -Real.logb 10 (Real.sqrt (KW / KA_ACETIC * (molesA / totalVol))))
    else if molesB > molesA then
      some (14.0 - -Real.logb 10 ((molesB - molesA) / totalVol))
    else none
  -- 3. Strong Acid + Weak Base
  else if acidType = .strong ∧ baseType = .weak then
    if vBase = 0 then
      some (-Real.logb 10 cAcid)
    else if molesB < molesA then
      some (-Real.logb 10 ((molesA - molesB) / totalVol))
    else if |molesB - molesA| < 1e-9 then
      some (-Real.logb 10 (Real.sqrt (KW / KB_AMMONIA * (molesA / totalVol))))
    else if molesB > molesA then
      some ((14.0 - -Real.logb 10 KB_AMMONIA) + Real.logb 10 ((molesB - molesA) / molesA))
    else none
  -- 4. Weak Acid + Weak Base
  else if acidType = .weak ∧ baseType = .weak then
    if vBase = 0 then
      some (-Real.logb 10 (Real.sqrt (KA_ACETIC * cAcid)))
    else if molesB < molesA then
      some (-Real.logb 10 KA_ACETIC + Real.logb 10 (molesB / (molesA - molesB)))
    else if |molesB - molesA| < 1e-9 then
      some ((-Real.logb 10 KA_ACETIC + (14.0 - -Real.logb 10 KB_AMMONIA)) / 2)
    else if molesB > molesA then
      some ((14.0 - -Real.logb 10 KB_AMMONIA) + Real.logb 10 ((molesB - molesA) / molesA))
    else none
  else none

/-- The pH returned by the source function: the value of the branch that
fired, or the trailing `return 7` when no branch did. -/
noncomputable def calculatePH (vBase : ℝ) (acidType baseType : ElectrolyteType) : ℝ :=
  (calculatePHOpt vBase acidType baseType).getD 7

/-- Source: `const getSolutionColor = (ph, type) => ...`. -/
noncomputable def getSolutionColor (ph : ℝ) (type : IndicatorType) : String :=
  let ind := INDICATORS type
  if ph < ind.rangeLow then "#f1f5f9"
  else if type = .phenolphthalein then
    if ph < 8.2 then "#f8fafc"
    else if ph > 10.0 then "#ec4899"
    else "#fbcfe8"
  else if type = .methylRed then
    if ph < 4.4 then "#ef4444"
    else if ph > 6.2 then "#eab308"
    else "#f97316"
  else if type = .bromothymolBlue then
    if ph < 6.0 then "#eab308"
    else if ph > 7.6 then "#3b82f6"
    else "#22c55e"
  else "#f1f5f9"

/-- Source: the `graphPoints` sweep
`for (let v = 0; v <= 50; v += 0.5)` with the refinement
`for (let fineV = v; fineV < v + 0.5; fineV += 0.1)` when `24 < v < 26`.
In exact arithmetic the outer loop visits `v = k * 0.5` for `k = 0..100`
and the inner loop visits `fineV = v + j * 0.1` for `j = 0..4`
(`v + 5 * 0.1 < v + 0.5` fails). -/
noncomputable def graphPoints (acidType baseType : ElectrolyteType) : List (ℝ × ℝ) :=
  (List.range 101).flatMap fun k =>
    let v : ℝ := k * 0.5
    if 24 < v ∧ v < 26 then
      (List.range 5).map fun j : ℕ =>
        (v + (j:ℝ) * 0.1, calculatePH (v + (j:ℝ) * 0.1) acidType baseType)
    else
      [(v, calculatePH v acidType baseType)]

/-- The sampled volumes of `graphPoints`, expressed in tenths of a mL as
natural numbers (`v = n / 10`): the outer step `0.5` is 5 tenths, the
refinement step `0.1` is 1 tenth, and the window `24 < v < 26` is
`48 < k < 52` for `v = k * 0.5`.  A computable mirror of the volume
component of `graphPoints`, used to decide its structural properties. -/
def graphVolTenths : List ℕ :=
  (List.range 101).flatMap fun k =>
    if 48 < k ∧ k < 52 then
      (List.range 5).map fun j => k * 5 + j
    else [k * 5]

/-- Boolean check that every pair of adjacent list entries satisfies
`p`. -/
def chainB (p : ℕ → ℕ → Bool) : List ℕ → Bool
  | x :: y :: xs => p x y && chainB p (y :: xs)
  | _ => true

/-- Source: `interface TitrationState`. -/
structure TitrationState where
  addedBaseVol : ℝ
  indicator : IndicatorType
  acidType : ElectrolyteType
  baseType : ElectrolyteType

/-- Source: the acid `<select>` handler
`setState(prev => ({...prev, acidType: e.target.value, addedBaseVol: 0}))`. -/
def selectAcidType (s : TitrationState) (t : ElectrolyteType) : TitrationState :=
  { s with acidType := t, addedBaseVol := 0 }

/-- Source: the base `<select>` handler
`setState(prev => ({...prev, baseType: e.target.value, addedBaseVol: 0}))`. -/
def selectBaseType (s : TitrationState) (t : ElectrolyteType) : TitrationState :=
  { s with baseType := t, addedBaseVol := 0 }

/-- Source: the indicator `<select>` handler
`setState(prev => ({...prev, indicator: e.target.value}))`. -/
def selectIndicator (s : TitrationState) (i : IndicatorType) : TitrationState :=
  { s with indicator := i }

/-! ## Helper lemmas for base-10 logarithms and square roots -/

lemma ten_zpow_pos (m : ℤ) : (0:ℝ) < 10 ^ m :=
  zpow_pos (by norm_num) m

lemma logb10_zpow (m : ℤ) : Real.logb 10 ((10:ℝ) ^ m) = m := by
  rw [← Real.rpow_intCast 10 m]
  exact Real.logb_rpow (by norm_num) (by norm_num)

lemma logb10_le_zpow {x : ℝ} {m : ℤ} (hx : 0 < x) (h : x ≤ (10:ℝ) ^ m) :
    Real.logb 10 x ≤ (m : ℝ) := by
  calc Real.logb 10 x ≤ Real.logb 10 ((10:ℝ) ^ m) :=
        Real.logb_le_logb_of_le (by norm_num) hx h
    _ = m := logb10_zpow m

lemma zpow_le_logb10 {x : ℝ} {m : ℤ} (h : (10:ℝ) ^ m ≤ x) :
    (m : ℝ) ≤ Real.logb 10 x := by
  calc (m : ℝ) = Real.logb 10 ((10:ℝ) ^ m) := (logb10_zpow m).symm
    _ ≤ Real.logb 10 x :=
        Real.logb_le_logb_of_le (by norm_num) (ten_zpow_pos m) h

lemma logb10_lt_zpow {x : ℝ} {m : ℤ} (hx : 0 < x) (h : x < (10:ℝ) ^ m) :
    Real.logb 10 x < (m : ℝ) := by
  calc Real.logb 10 x < Real.logb 10 ((10:ℝ) ^ m) :=
        Real.logb_lt_logb (by norm_num) hx h
    _ = m := logb10_zpow m

lemma zpow_lt_logb10 {x : ℝ} {m : ℤ} (h : (10:ℝ) ^ m < x) :
    (m : ℝ) < Real.logb 10 x := by
  calc (m : ℝ) = Real.logb 10 ((10:ℝ) ^ m) := (logb10_zpow m).symm
    _ < Real.logb 10 x := Real.logb_lt_logb (by norm_num) (ten_zpow_pos m) h

lemma zpow_le_sqrt {t : ℝ} {m : ℤ} (h : (10:ℝ) ^ (2 * m) ≤ t) :
    (10:ℝ) ^ m ≤ Real.sqrt t := by
  have e : (10:ℝ) ^ (2 * m) = ((10:ℝ) ^ m) ^ 2 := by
    rw [two_mul, zpow_add₀ (by norm_num : (10:ℝ) ≠ 0)]; ring
  calc (10:ℝ) ^ m = Real.sqrt (((10:ℝ) ^ m) ^ 2) :=
        (Real.sqrt_sq (ten_zpow_pos m).le).symm
    _ ≤ Real.sqrt t := Real.sqrt_le_sqrt (by rw [← e]; exact h)

lemma sqrt_le_zpow {t : ℝ} {m : ℤ} (h : t ≤ (10:ℝ) ^ (2 * m)) :
    Real.sqrt t ≤ (10:ℝ) ^ m := by
  have e : (10:ℝ) ^ (2 * m) = ((10:ℝ) ^ m) ^ 2 := by
    rw [two_mul, zpow_add₀ (by norm_num : (10:ℝ) ≠ 0)]; ring
  calc Real.sqrt t ≤ Real.sqrt (((10:ℝ) ^ m) ^ 2) :=
        Real.sqrt_le_sqrt (by rw [← e]; exact h)
    _ = (10:ℝ) ^ m := Real.sqrt_sq (ten_zpow_pos m).le

lemma et_weak_ne_strong : ElectrolyteType.weak ≠ ElectrolyteType.strong := by decide

lemma et_strong_ne_weak : ElectrolyteType.strong ≠ ElectrolyteType.weak := by decide

/-! ## Branch evaluation lemmas for `calculatePH`

Each lemma states which value the source function returns once its guards
are decided by the stated hypotheses (moles of base `v * 0.1` against
moles of acid `2.5`, total volume `25 + v`). -/

lemma ph_ss_pre {v : ℝ} (h : v * 0.1 < 2.5) :
    calculatePH v .strong .strong = -Real.logb 10 ((2.5 - v * 0.1) / (25 + v)) := by
  unfold calculatePH calculatePHOpt ACID_VOL_INITIAL ACID_CONC BASE_CONC
  norm_num
  split_ifs with h1 h2
  · rfl
  · exact absurd (by linarith : v * (1/10) < 5/2) h1
  · exact absurd (by linarith : v * (1/10) < 5/2) h1

lemma ph_ss_eq {v : ℝ} (h1 : 2.5 ≤ v * 0.1) (h2 : |v * 0.1 - 2.5| < 1e-9) :
    calculatePH v .strong .strong = 7 := by
  unfold calculatePH calculatePHOpt ACID_VOL_INITIAL ACID_CONC BASE_CONC
  norm_num
  split_ifs with ha hb
  · exact absurd (by linarith : (5:ℝ)/2 ≤ v * (1/10)) (not_le.mpr ha)
  · rfl
  · exfalso
    apply hb
    rw [abs_lt] at h2 ⊢
    constructor <;> linarith [h2.1, h2.2]

lemma ph_ss_post {v : ℝ} (h : 2.5 + 1e-9 ≤ v * 0.1) :
    calculatePH v .strong .strong = 14 + Real.logb 10 ((v * 0.1 - 2.5) / (25 + v)) := by
  unfold calculatePH calculatePHOpt ACID_VOL_INITIAL ACID_CONC BASE_CONC
  norm_num
  split_ifs with ha hb
  · exact absurd (by linarith : ¬ v * (1/10) < 5/2) (not_not_intro ha)
  · rw [abs_lt] at hb
    exact absurd (by linarith : ¬ v * (1/10) - 5/2 < 1/1000000000) (not_not_intro hb.2)
  · rfl

lemma ph_ws_zero :
    calculatePH 0 .weak .strong = -Real.logb 10 (Real.sqrt (1.8e-5 * 0.1)) := by
  unfold calculatePH calculatePHOpt ACID_VOL_INITIAL ACID_CONC BASE_CONC KA_ACETIC
  norm_num [et_weak_ne_strong, et_strong_ne_weak]

lemma ph_ws_buffer {v : ℝ} (h0 : v ≠ 0) (h : v * 0.1 < 2.5) :
    calculatePH v .weak .strong =
      -Real.logb 10 1.8e-5 + Real.logb 10 ((v * 0.1) / (2.5 - v * 0.1)) := by
  unfold calculatePH calculatePHOpt ACID_VOL_INITIAL ACID_CONC BASE_CONC KA_ACETIC
  norm_num [et_weak_ne_strong, et_strong_ne_weak]
  split_ifs with ha hb hc hd
  · exact absurd ha h0
  · rfl
  · exact absurd (by linarith : v * (1/10) < 5/2) hb
  · exact absurd (by linarith : v * (1/10) < 5/2) hb
  · exact absurd (by linarith : v * (1/10) < 5/2) hb

lemma ph_ws_eq {v : ℝ} (h1 : 2.5 ≤ v * 0.1) (h2 : |v * 0.1 - 2.5| < 1e-9) :
    calculatePH v .weak .strong =
      14 + Real.logb 10 (Real.sqrt (1e-14 / 1.8e-5 * (2.5 / (25 + v)))) := by
  unfold calculatePH calculatePHOpt ACID_VOL_INITIAL ACID_CONC BASE_CONC KA_ACETIC KW
  norm_num [et_weak_ne_strong, et_strong_ne_weak]
  split_ifs with ha hb hc hd
  · exact absurd (by rw [ha]; norm_num : ¬ (2.5:ℝ) ≤ v * 0.1) (not_not_intro h1)
  · exact absurd (by linarith : (5:ℝ)/2 ≤ v * (1/10)) (not_le.mpr hb)
  · rfl
  · exfalso
    apply hc
    rw [abs_lt] at h2 ⊢
    constructor <;> linarith [h2.1, h2.2]
  · exfalso
    apply hc
    rw [abs_lt] at h2 ⊢
    constructor <;> linarith [h2.1, h2.2]

lemma ph_ws_post {v : ℝ} (h : 2.5 + 1e-9 ≤ v * 0.1) :
    calculatePH v .weak .strong = 14 + Real.logb 10 ((v * 0.1 - 2.5) / (25 + v)) := by
  unfold calculatePH calculatePHOpt ACID_VOL_INITIAL ACID_CONC BASE_CONC KA_ACETIC KW
  norm_num [et_weak_ne_strong, et_strong_ne_weak]
  split_ifs with ha hb hc hd
  · exact absurd (by rw [ha]; norm_num : ¬ (2.5:ℝ) + 1e-9 ≤ v * 0.1) (not_not_intro h)
  · exact absurd (by linarith : ¬ v * (1/10) < 5/2) (not_not_intro hb)
  · rw [abs_lt] at hc
    exact absurd (by linarith : ¬ v * (1/10) - 5/2 < 1/1000000000) (not_not_intro hc.2)
  · rfl
  · exact absurd (by linarith : (5:ℝ)/2 < v * (1/10)) hd

lemma ph_sw_zero : calculatePH 0 .strong .weak = -Real.logb 10 0.1 := by
  unfold calculatePH calculatePHOpt ACID_VOL_INITIAL ACID_CONC BASE_CONC
  norm_num [et_weak_ne_strong, et_strong_ne_weak]

lemma ph_sw_pre {v : ℝ} (h0 : v ≠ 0) (h : v * 0.1 < 2.5) :
    calculatePH v .strong .weak = -Real.logb 10 ((2.5 - v * 0.1) / (25 + v)) := by
  unfold calculatePH calculatePHOpt ACID_VOL_INITIAL ACID_CONC BASE_CONC
  norm_num [et_weak_ne_strong, et_strong_ne_weak]
  split_ifs with ha hb hc hd
  · exact absurd ha h0
  · rfl
  · exact absurd (by linarith : v * (1/10) < 5/2) hb
  · exact absurd (by linarith : v * (1/10) < 5/2) hb
  · exact absurd (by linarith : v * (1/10) < 5/2) hb

lemma ph_sw_eq {v : ℝ} (h1 : 2.5 ≤ v * 0.1) (h2 : |v * 0.1 - 2.5| < 1e-9) :
    calculatePH v .strong .weak =
      -Real.logb 10 (Real.sqrt (1e-14 / 1.8e-5 * (2.5 / (25 + v)))) := by
  unfold calculatePH calculatePHOpt ACID_VOL_INITIAL ACID_CONC BASE_CONC KB_AMMONIA KW
  norm_num [et_weak_ne_strong, et_strong_ne_weak]
  split_ifs with ha hb hc hd
  · exact absurd (by rw [ha]; norm_num : ¬ (2.5:ℝ) ≤ v * 0.1) (not_not_intro h1)
  · exact absurd (by linarith : (5:ℝ)/2 ≤ v * (1/10)) (not_le.mpr hb)
  · rfl
  · exfalso
    apply hc
    rw [abs_lt] at h2 ⊢
    constructor <;> linarith [h2.1, h2.2]
  · exfalso
    apply hc
    rw [abs_lt] at h2 ⊢
    constructor <;> linarith [h2.1, h2.2]

lemma ph_sw_post {v : ℝ} (h : 2.5 + 1e-9 ≤ v * 0.1) :
    calculatePH v .strong .weak =
      14 + Real.logb 10 1.8e-5 + Real.logb 10 ((v * 0.1 - 2.5) / 2.5) := by
  unfold calculatePH calculatePHOpt ACID_VOL_INITIAL ACID_CONC BASE_CONC KB_AMMONIA
  norm_num [et_weak_ne_strong, et_strong_ne_weak]
  split_ifs with ha hb hc hd
  · exact absurd (by rw [ha]; norm_num : ¬ (2.5:ℝ) + 1e-9 ≤ v * 0.1) (not_not_intro h)
  · exact absurd (by linarith : ¬ v * (1/10) < 5/2) (not_not_intro hb)
  · rw [abs_lt] at hc
    exact absurd (by linarith : ¬ v * (1/10) - 5/2 < 1/1000000000) (not_not_intro hc.2)
  · rfl
  · exact absurd (by linarith : (5:ℝ)/2 < v * (1/10)) hd

lemma ph_ww_zero :
    calculatePH 0 .weak .weak = -Real.logb 10 (Real.sqrt (1.8e-5 * 0.1)) := by
  unfold calculatePH calculatePHOpt ACID_VOL_INITIAL ACID_CONC BASE_CONC KA_ACETIC
  norm_num [et_weak_ne_strong, et_strong_ne_weak]

lemma ph_ww_buffer {v : ℝ} (h0 : v ≠ 0) (h : v * 0.1 < 2.5) :
    calculatePH v .weak .weak =
      -Real.logb 10 1.8e-5 + Real.logb 10 ((v * 0.1) / (2.5 - v * 0.1)) := by
  unfold calculatePH calculatePHOpt ACID_VOL_INITIAL ACID_CONC BASE_CONC KA_ACETIC KB_AMMONIA
  norm_num [et_weak_ne_strong, et_strong_ne_weak]
  split_ifs with ha hb hc hd
  · exact absurd ha h0
  · rfl
  · exact absurd (by linarith : v * (1/10) < 5/2) hb
  · exact absurd (by linarith : v * (1/10) < 5/2) hb
  · exact absurd (by linarith : v * (1/10) < 5/2) hb

lemma ph_ww_eq {v : ℝ} (h1 : 2.5 ≤ v * 0.1) (h2 : |v * 0.1 - 2.5| < 1e-9) :
    calculatePH v .weak .weak =
      (-Real.logb 10 1.8e-5 + (14 + Real.logb 10 1.8e-5)) / 2 := by
  unfold calculatePH calculatePHOpt ACID_VOL_INITIAL ACID_CONC BASE_CONC KA_ACETIC KB_AMMONIA
  norm_num [et_weak_ne_strong, et_strong_ne_weak]
  split_ifs with ha hb hc hd
  · exact absurd (by rw [ha]; norm_num : ¬ (2.5:ℝ) ≤ v * 0.1) (not_not_intro h1)
  · exact absurd (by linarith : (5:ℝ)/2 ≤ v * (1/10)) (not_le.mpr hb)
  · rfl
  · exfalso
    apply hc
    rw [abs_lt] at h2 ⊢
    constructor <;> linarith [h2.1, h2.2]
  · exfalso
    apply hc
    rw [abs_lt] at h2 ⊢
    constructor <;> linarith [h2.1, h2.2]

lemma ph_ww_post {v : ℝ} (h : 2.5 + 1e-9 ≤ v * 0.1) :
    calculatePH v .weak .weak =
      14 + Real.logb 10 1.8e-5 + Real.logb 10 ((v * 0.1 - 2.5) / 2.5) := by
  unfold calculatePH calculatePHOpt ACID_VOL_INITIAL ACID_CONC BASE_CONC KA_ACETIC KB_AMMONIA
  norm_num [et_weak_ne_strong, et_strong_ne_weak]
  split_ifs with ha hb hc hd
  · exact absurd (by rw [ha]; norm_num : ¬ (2.5:ℝ) + 1e-9 ≤ v * 0.1) (not_not_intro h)
  · exact absurd (by linarith : ¬ v * (1/10) < 5/2) (not_not_intro hb)
  · rw [abs_lt] at hc
    exact absurd (by linarith : ¬ v * (1/10) - 5/2 < 1/1000000000) (not_not_intro hc.2)
  · rfl
  · exact absurd (by linarith : (5:ℝ)/2 < v * (1/10)) hd

/-! ## Monotonicity helpers for the branch formulas -/

lemma pre_arg_anti {v1 v2 : ℝ} (h0 : 0 ≤ v1) (h12 : v1 ≤ v2) (h2 : v2 * 0.1 < 2.5) :
    (2.5 - v2 * 0.1) / (25 + v2) ≤ (2.5 - v1 * 0.1) / (25 + v1) ∧
    0 < (2.5 - v2 * 0.1) / (25 + v2) := by
  have d1 : (0:ℝ) < 25 + v1 := by linarith
  have d2 : (0:ℝ) < 25 + v2 := by linarith
  constructor
  · rw [div_le_div_iff d2 d1]
    nlinarith
  · exact div_pos (by linarith) d2

lemma post_arg_mono {v1 v2 : ℝ} (h1 : 2.5 + 1e-9 ≤ v1 * 0.1) (h12 : v1 ≤ v2) :
    (v1 * 0.1 - 2.5) / (25 + v1) ≤ (v2 * 0.1 - 2.5) / (25 + v2) ∧
    0 < (v1 * 0.1 - 2.5) / (25 + v1) := by
  have d1 : (0:ℝ) < 25 + v1 := by linarith
  have d2 : (0:ℝ) < 25 + v2 := by linarith
  constructor
  · rw [div_le_div_iff d1 d2]
    nlinarith
  · exact div_pos (by linarith) d1

lemma buffer_arg_mono {v1 v2 : ℝ} (h0 : 0 < v1) (h12 : v1 ≤ v2) (h2 : v2 * 0.1 < 2.5) :
    (v1 * 0.1) / (2.5 - v1 * 0.1) ≤ (v2 * 0.1) / (2.5 - v2 * 0.1) ∧
    0 < (v1 * 0.1) / (2.5 - v1 * 0.1) := by
  have d1 : (0:ℝ) < 2.5 - v1 * 0.1 := by linarith
  have d2 : (0:ℝ) < 2.5 - v2 * 0.1 := by linarith
  constructor
  · rw [div_le_div_iff d1 d2]
    nlinarith
  · exact div_pos (by linarith) d1

lemma neg_logb_le_neg_logb {x y : ℝ} (hy : 0 < y) (hxy : y ≤ x) :
    -Real.logb 10 x ≤ -Real.logb 10 y :=
  neg_le_neg (Real.logb_le_logb_of_le (by norm_num) hy hxy)

/-- Just below the strong/strong equivalence window the `molesB < molesA`
branch still fires and yields a pH above 7. -/
lemma ph_near_eq_below : 7 < calculatePH (25 - 1e-9) .strong .strong := by
  rw [ph_ss_pre (by norm_num)]
  have hpos : (0:ℝ) < (2.5 - (25 - 1e-9) * 0.1) / (25 + (25 - 1e-9)) := by norm_num
  have harg : ((2.5 - (25 - 1e-9) * 0.1) / (25 + (25 - 1e-9)) : ℝ) < (10:ℝ) ^ (-7 : ℤ) := by
    rw [div_lt_iff (by norm_num : (0:ℝ) < 25 + (25 - 1e-9))]
    norm_num
  have hlog := logb10_lt_zpow hpos harg
  norm_num at hlog
  linarith

/-! ## Claim theorems -/

/-- C3 counterexample: `getSolutionColor 3.0 methylRed` returns the
neutral color `#f1f5f9`, not methyl red's cataloged acid-side color
`#ef4444`, even though `3.0 < 4.4 = rangeLow`. -/
theorem c3_counterexample :
    getSolutionColor 3.0 .methylRed = "#f1f5f9" ∧
    getSolutionColor 3.0 .methylRed ≠ (INDICATORS .methylRed).colorLow ∧
    (3.0:ℝ) < (INDICATORS .methylRed).rangeLow := by
  have h : getSolutionColor 3.0 .methylRed = "#f1f5f9" := by
    simp only [getSolutionColor, INDICATORS]
    norm_num
  refine ⟨h, ?_, by norm_num [INDICATORS]⟩
  rw [h]
  simp only [INDICATORS]
  decide

/-- C3 (amended): for every indicator and every pH strictly below that
indicator's `rangeLow`, `getSolutionColor` returns the fixed neutral
color `#f1f5f9` (the first guard of the function), not the indicator's
cataloged `colorLow`. -/
theorem c3_amended (t : IndicatorType) (ph : ℝ)
    (h : ph < (INDICATORS t).rangeLow) :
    getSolutionColor ph t = "#f1f5f9" := by
  simp only [getSolutionColor]
  rw [if_pos h]

/-- C3 witness: the amended claim applied at pH 3.0 and methyl red. -/
theorem c3_witness : getSolutionColor 3.0 .methylRed = "#f1f5f9" :=
  c3_amended .methylRed 3.0 (by norm_num [INDICATORS])

/-- C5: `calculatePH 0 strong strong = 1`, and `calculatePH 50 strong strong`
equals `14 - (-log10((5 - 2.5)/75))` exactly; that value lies strictly
between 12.5 and 12.6 (so it is ≈ 12.52). -/
theorem c5_strong_strong_endpoints :
    calculatePH 0 .strong .strong = 1 ∧
    calculatePH 50 .strong .strong = 14 - -Real.logb 10 ((5 - 2.5) / 75) ∧
    12.5 < calculatePH 50 .strong .strong ∧
    calculatePH 50 .strong .strong < 12.6 := by
  have h0 : calculatePH 0 .strong .strong = 1 := by
    rw [ph_ss_pre (by norm_num)]
    have : ((2.5 - 0 * 0.1) / (25 + 0) : ℝ) = (10:ℝ) ^ (-1 : ℤ) := by norm_num
    rw [this, logb10_zpow]
    norm_num
  have h50 : calculatePH 50 .strong .strong = 14 + Real.logb 10 ((1:ℝ)/30) := by
    rw [ph_ss_post (by norm_num)]
    norm_num
  have hl : (14:ℝ) < 10 * Real.logb 10 30 := by
    have hx : ((10:ℝ) ^ (14 : ℤ)) < 30 ^ (10:ℕ) := by norm_num
    have := zpow_lt_logb10 hx
    rw [Real.logb_pow] at this
    norm_num at this
    linarith
  have hu : 10 * Real.logb 10 30 < (15:ℝ) := by
    have hx : ((30:ℝ) ^ (10:ℕ)) < (10:ℝ) ^ (15 : ℤ) := by norm_num
    have := logb10_lt_zpow (by positivity) hx
    rw [Real.logb_pow] at this
    norm_num at this
    linarith
  have hinv : Real.logb 10 ((1:ℝ)/30) = -Real.logb 10 30 := by
    rw [one_div, Real.logb_inv]
  refine ⟨h0, ?_, ?_, ?_⟩
  · rw [h50]; norm_num
  · rw [h50, hinv]; linarith
  · rw [h50, hinv]; linarith

/-- C7: for every volume `0 ≤ v` and every strength combination, one of
the four case-specific branch groups of `calculatePH` returns a value:
the trailing `return 7` fallback is unreachable. -/
theorem c7_fallback_unreachable (v : ℝ) (hv : 0 ≤ v)
    (a b : ElectrolyteType) : (calculatePHOpt v a b).isSome = true := by
  cases a <;> cases b
  all_goals
    unfold calculatePHOpt ACID_VOL_INITIAL ACID_CONC BASE_CONC
    norm_num [et_weak_ne_strong, et_strong_ne_weak]
    split_ifs with h1 h2 h3 h4 <;> try rfl
  all_goals
    exfalso
    apply h3
    have he : v * (1/10) = 5/2 := le_antisymm (not_lt.mp h4) (not_lt.mp h2)
    rw [he]
    norm_num

/-- C7 witness: the theorem applied at volume 0 with strong acid and
strong base. -/
theorem c7_witness : (calculatePHOpt 0 .strong .strong).isSome = true :=
  c7_fallback_unreachable 0 le_rfl .strong .strong

/-- Bounds for the initial weak-acid pH value
`-log10(sqrt(1.8e-5 * 0.1))`: it lies strictly between 2.8 and 2.9. -/
lemma ph0_weak_acid_bounds :
    2.8 < -Real.logb 10 (Real.sqrt (1.8e-5 * 0.1)) ∧
    -Real.logb 10 (Real.sqrt (1.8e-5 * 0.1)) < 2.9 := by
  have htpos : (0:ℝ) < 1.8e-5 * 0.1 := by norm_num
  have e : Real.sqrt (1.8e-5 * 0.1) ^ (10:ℕ) = ((1.8e-5 * 0.1 : ℝ)) ^ (5:ℕ) := by
    rw [show (10:ℕ) = 2 * 5 from rfl, pow_mul, Real.sq_sqrt htpos.le]
  have h1 : ((-29:ℤ):ℝ) < Real.logb 10 (((1.8e-5 * 0.1 : ℝ)) ^ (5:ℕ)) := by
    apply zpow_lt_logb10
    norm_num
  have h2 : Real.logb 10 (((1.8e-5 * 0.1 : ℝ)) ^ (5:ℕ)) < ((-28:ℤ):ℝ) := by
    apply logb10_lt_zpow (by positivity)
    norm_num
  rw [← e, Real.logb_pow] at h1 h2
  push_cast at h1 h2
  constructor <;> linarith

/-- C8 counterexample: `calculatePH 0 weak strong` differs from the
spec's quoted approximation 3.37 by more than 0.4 (its true value is
about 2.87). -/
theorem c8_counterexample : |calculatePH 0 .weak .strong - 3.37| > 0.4 := by
  rw [ph_ws_zero]
  have hb := ph0_weak_acid_bounds
  have hneg : -Real.logb 10 (Real.sqrt (1.8e-5 * 0.1)) - 3.37 < 0 := by
    linarith [hb.2]
  rw [gt_iff_lt, abs_of_neg hneg]
  linarith [hb.2]

/-- C8 (amended): `calculatePH 0 weak strong` equals
`-log10(sqrt(1.8e-5 * 0.1))` exactly, and that value lies strictly
between 2.8 and 2.9 (≈ 2.87, not ≈ 3.37 as the spec states). -/
theorem c8_amended :
    calculatePH 0 .weak .strong = -Real.logb 10 (Real.sqrt (1.8e-5 * 0.1)) ∧
    2.8 < calculatePH 0 .weak .strong ∧ calculatePH 0 .weak .strong < 2.9 := by
  refine ⟨ph_ws_zero, ?_, ?_⟩ <;> rw [ph_ws_zero]
  · exact ph0_weak_acid_bounds.1
  · exact ph0_weak_acid_bounds.2

/-- C2 counterexample: the volume `25 - 1e-9` satisfies the claim's
epsilon condition `|v * 0.1 - 2.5| < 1e-9`, yet `calculatePH` does not
return 7 there (the `molesB < molesA` branch fires first and yields a pH
above 7). -/
theorem c2_counterexample :
    (0:ℝ) ≤ 25 - 1e-9 ∧ |((25 - 1e-9 : ℝ)) * 0.1 - 2.5| < 1e-9 ∧
    calculatePH (25 - 1e-9) .strong .strong ≠ 7 := by
  refine ⟨by norm_num, by rw [abs_lt]; constructor <;> norm_num, ?_⟩
  exact ph_near_eq_below.ne'

/-- C2 (amended): for every volume with `molesBase ≥ molesAcid` whose
moles of base are within 1e-9 of the acid moles, `calculatePH` returns
exactly 7; in particular `calculatePH 25 strong strong = 7`. -/
theorem c2_amended :
    (∀ v : ℝ, 0 ≤ v → 2.5 ≤ v * 0.1 → |v * 0.1 - 2.5| < 1e-9 →
      calculatePH v .strong .strong = 7) ∧
    calculatePH 25 .strong .strong = 7 := by
  refine ⟨fun v _ h1 h2 => ph_ss_eq h1 h2, ?_⟩
  exact ph_ss_eq (by norm_num) (by rw [abs_lt]; constructor <;> norm_num)

/-- C2 witness: the amended claim applied at volume 25. -/
theorem c2_witness : calculatePH 25 .strong .strong = 7 :=
  c2_amended.1 25 (by norm_num) (by norm_num)
    (by rw [abs_lt]; constructor <;> norm_num)

/-- C1 counterexample: with strong acid and strong base, the volumes
`25 - 1e-9 ≤ 25` (both in `[0, 50]`) give decreasing pH: just below the
equivalence window the `molesB < molesA` branch yields a pH above 7,
while at 25 the equivalence branch returns exactly 7. -/
theorem c1_counterexample :
    (0:ℝ) ≤ 25 - 1e-9 ∧ (25 - 1e-9 : ℝ) ≤ 25 ∧ (25:ℝ) ≤ 50 ∧
    calculatePH 25 .strong .strong < calculatePH (25 - 1e-9) .strong .strong := by
  refine ⟨by norm_num, by norm_num, by norm_num, ?_⟩
  rw [ph_ss_eq (v := 25) (by norm_num) (by rw [abs_lt]; constructor <;> norm_num)]
  exact ph_near_eq_below

/-- C1 (amended): for the three combinations strong/strong, weak/strong
and strong/weak, pH is non-decreasing in the titrant volume on each side
of the equivalence window separately: on volumes with
`molesBase < molesAcid` (volumes strictly positive when the acid is
weak), and on volumes with `molesBase ≥ molesAcid + 1e-9`.  Across the
window itself the pH can decrease (see the counterexample). -/
theorem c1_monotone_amended (a b : ElectrolyteType)
    (hab : ¬(a = .weak ∧ b = .weak)) :
    (∀ v1 v2 : ℝ, 0 ≤ v1 → v1 ≤ v2 → v2 * 0.1 < 2.5 → (a = .weak → 0 < v1) →
      calculatePH v1 a b ≤ calculatePH v2 a b) ∧
    (∀ v1 v2 : ℝ, 2.5 + 1e-9 ≤ v1 * 0.1 → v1 ≤ v2 →
      calculatePH v1 a b ≤ calculatePH v2 a b) := by
  cases a <;> cases b
  · -- strong acid, strong base
    constructor
    · intro v1 v2 h0 h12 h2 _
      rw [ph_ss_pre (by nlinarith : v1 * 0.1 < 2.5), ph_ss_pre h2]
      obtain ⟨hle, hpos⟩ := pre_arg_anti h0 h12 h2
      exact neg_logb_le_neg_logb hpos hle
    · intro v1 v2 h1 h12
      rw [ph_ss_post h1, ph_ss_post (by nlinarith : 2.5 + 1e-9 ≤ v2 * 0.1)]
      obtain ⟨hle, hpos⟩ := post_arg_mono h1 h12
      have := Real.logb_le_logb_of_le (by norm_num : (1:ℝ) < 10) hpos hle
      linarith
  · -- strong acid, weak base
    constructor
    · intro v1 v2 h0 h12 h2 _
      rcases eq_or_lt_of_le h0 with h0' | h0'
      · rcases eq_or_lt_of_le (h0' ▸ h12 : (0:ℝ) ≤ v2) with h2' | h2'
        · rw [← h0', ← h2']
        · rw [← h0', ph_sw_zero, ph_sw_pre h2'.ne' h2]
          apply neg_logb_le_neg_logb
          · exact div_pos (by linarith) (by linarith)
          · rw [div_le_iff (by linarith : (0:ℝ) < 25 + v2)]
            nlinarith
      · rw [ph_sw_pre h0'.ne' (by nlinarith : v1 * 0.1 < 2.5),
           ph_sw_pre (lt_of_lt_of_le h0' h12).ne' h2]
        obtain ⟨hle, hpos⟩ := pre_arg_anti h0 h12 h2
        exact neg_logb_le_neg_logb hpos hle
    · intro v1 v2 h1 h12
      rw [ph_sw_post h1, ph_sw_post (by nlinarith : 2.5 + 1e-9 ≤ v2 * 0.1)]
      have hpos : (0:ℝ) < (v1 * 0.1 - 2.5) / 2.5 := div_pos (by linarith) (by norm_num)
      have hle : (v1 * 0.1 - 2.5) / 2.5 ≤ (v2 * 0.1 - 2.5) / 2.5 := by
        gcongr
      have := Real.logb_le_logb_of_le (by norm_num : (1:ℝ) < 10) hpos hle
      linarith
  · -- weak acid, strong base
    constructor
    · intro v1 v2 h0 h12 h2 hw
      have h0' : 0 < v1 := hw rfl
      rw [ph_ws_buffer h0'.ne' (by nlinarith : v1 * 0.1 < 2.5),
         ph_ws_buffer (lt_of_lt_of_le h0' h12).ne' h2]
      obtain ⟨hle, hpos⟩ := buffer_arg_mono h0' h12 h2
      have := Real.logb_le_logb_of_le (by norm_num : (1:ℝ) < 10) hpos hle
      linarith
    · intro v1 v2 h1 h12
      rw [ph_ws_post h1, ph_ws_post (by nlinarith : 2.5 + 1e-9 ≤ v2 * 0.1)]
      obtain ⟨hle, hpos⟩ := post_arg_mono h1 h12
      have := Real.logb_le_logb_of_le (by norm_num : (1:ℝ) < 10) hpos hle
      linarith
  · exact absurd ⟨rfl, rfl⟩ hab

/-- C1 witness: the amended claim applied at concrete volumes on each
side of the equivalence window. -/
theorem c1_witness :
    calculatePH 1 .strong .strong ≤ calculatePH 2 .strong .strong ∧
    calculatePH 26 .weak .strong ≤ calculatePH 27 .weak .strong := by
  constructor
  · exact (c1_monotone_amended .strong .strong (by decide)).1 1 2 (by norm_num)
      (by norm_num) (by norm_num) (fun h => absurd h (by decide))
  · exact (c1_monotone_amended .weak .strong (by decide)).2 26 27 (by norm_num)
      (by norm_num)

/-! ## Curve sampler lemmas -/

lemma chainB_chain' (p : ℕ → ℕ → Bool) :
    ∀ l : List ℕ, chainB p l = true → List.Chain' (fun x y => p x y = true) l
  | [] => fun _ => List.chain'_nil
  | [x] => fun _ => List.chain'_singleton x
  | x :: y :: xs => fun h => by
      have h' : (p x y && chainB p (y :: xs)) = true := h
      rw [Bool.and_eq_true] at h'
      exact List.chain'_cons.mpr ⟨h'.1, chainB_chain' p (y :: xs) h'.2⟩

/-- The volume components of `graphPoints` are exactly the tenths list
scaled back to mL. -/
lemma graphPoints_fst_tenths (a b : ElectrolyteType) :
    (graphPoints a b).map Prod.fst =
      List.map (fun n : ℕ => (n : ℝ) / 10) graphVolTenths := by
  unfold graphPoints graphVolTenths
  rw [List.map_flatMap, List.map_flatMap]
  congr 1
  funext k
  by_cases hc : 48 < k ∧ k < 52
  · have hcR : 24 < (k:ℝ) * 0.5 ∧ (k:ℝ) * 0.5 < 26 := by
      obtain ⟨h1, h2⟩ := hc
      constructor
      · have : (48:ℝ) < k := by exact_mod_cast h1
        nlinarith
      · have : (k:ℝ) < 52 := by exact_mod_cast h2
        nlinarith
    rw [if_pos hcR, if_pos hc, List.map_map, List.map_map]
    apply List.map_congr_left
    intro j hj
    simp only [Function.comp_apply]
    push_cast
    ring
  · have hcR : ¬(24 < (k:ℝ) * 0.5 ∧ (k:ℝ) * 0.5 < 26) := by
      intro hr
      apply hc
      obtain ⟨hr1, hr2⟩ := hr
      constructor
      · have : (48:ℝ) < k := by nlinarith
        exact_mod_cast this
      · have : (k:ℝ) < 52 := by nlinarith
        exact_mod_cast this
    rw [if_neg hcR, if_neg hc]
    simp only [List.map_map, List.map_cons, List.map_nil, Function.comp_apply]
    push_cast
    ring_nf

/-- C4 counterexample: the sampled volume sequence contains the
consecutive entries 24 and 24.5 (indices 48 and 49); both lie inside
`[24, 26]` yet their distance is 0.5, not 0.1, refuting "0.1 mL
resolution inside [24, 26]". -/
theorem c4_counterexample :
    ((graphPoints .strong .strong).map Prod.fst)[48]? = some (24:ℝ) ∧
    ((graphPoints .strong .strong).map Prod.fst)[49]? = some (24.5:ℝ) ∧
    (24:ℝ) ≤ 24 ∧ (24.5:ℝ) ≤ 26 ∧ (24.5 - 24 : ℝ) ≠ 0.1 := by
  refine ⟨?_, ?_, le_refl _, by norm_num, by norm_num⟩
  · rw [graphPoints_fst_tenths, List.getElem?_map,
       show graphVolTenths[48]? = some 240 from by decide]
    norm_num
  · rw [graphPoints_fst_tenths, List.getElem?_map,
       show graphVolTenths[49]? = some 245 from by decide]
    norm_num

/-- C4 (amended): for every strength combination the curve sampler
produces strictly increasing volumes starting at 0 and ending at 50
inclusive, stepping 0.1 mL on the refined window `[24.5, 26]` and 0.5 mL
elsewhere (the refined window opens at 24.5, not 24), with each point's
pH equal to `calculatePH` at that volume. -/
theorem c4_sampler_amended (a b : ElectrolyteType) :
    ((graphPoints a b).map Prod.fst).head? = some 0 ∧
    ((graphPoints a b).map Prod.fst).getLast? = some 50 ∧
    List.Chain' (· < ·) ((graphPoints a b).map Prod.fst) ∧
    List.Chain' (fun x y => y - x = if 24.5 ≤ x ∧ y ≤ 26 then 0.1 else 0.5)
      ((graphPoints a b).map Prod.fst) ∧
    (graphPoints a b).map Prod.snd =
      (graphPoints a b).map (fun p => calculatePH p.1 a b) := by
  refine ⟨?_, ?_, ?_, ?_, ?_⟩
  · rw [graphPoints_fst_tenths, List.head?_map,
       show graphVolTenths.head? = some 0 from by decide]
    norm_num
  · rw [graphPoints_fst_tenths, List.getLast?_map,
       show graphVolTenths.getLast? = some 500 from by decide]
    norm_num
  · rw [graphPoints_fst_tenths, List.chain'_map]
    have hnat := chainB_chain' (fun x y => x < y) graphVolTenths (by decide)
    apply hnat.imp
    intro x y h
    simp only [decide_eq_true_eq] at h
    have : (x:ℝ) < y := by exact_mod_cast h
    linarith
  · rw [graphPoints_fst_tenths, List.chain'_map]
    have hnat := chainB_chain'
      (fun x y => if 245 ≤ x ∧ y ≤ 260 then y == x + 1 else y == x + 5)
      graphVolTenths (by decide)
    apply hnat.imp
    intro x y h
    have h' : (if 245 ≤ x ∧ y ≤ 260 then y == x + 1 else y == x + 5) = true := h
    by_cases hc : 245 ≤ x ∧ y ≤ 260
    · rw [if_pos hc, Nat.beq_eq_true_eq] at h'
      have hcR : 24.5 ≤ (x:ℝ) / 10 ∧ (y:ℝ) / 10 ≤ 26 := by
        obtain ⟨h1, h2⟩ := hc
        constructor
        · have : (245:ℝ) ≤ x := by exact_mod_cast h1
          linarith
        · have : (y:ℝ) ≤ 260 := by exact_mod_cast h2
          linarith
      rw [if_pos hcR, h']
      push_cast
      ring
    · rw [if_neg hc, Nat.beq_eq_true_eq] at h'
      have hcR : ¬(24.5 ≤ (x:ℝ) / 10 ∧ (y:ℝ) / 10 ≤ 26) := by
        intro hr
        apply hc
        obtain ⟨hr1, hr2⟩ := hr
        constructor
        · have : (245:ℝ) ≤ x := by linarith
          exact_mod_cast this
        · have : (y:ℝ) ≤ 260 := by linarith
          exact_mod_cast this
      rw [if_neg hcR, h']
      push_cast
      ring
  · apply List.map_congr_left
    intro p hp
    unfold graphPoints at hp
    rw [List.mem_flatMap] at hp
    obtain ⟨k, hk, hpk⟩ := hp
    by_cases hc : 24 < (k:ℝ) * 0.5 ∧ (k:ℝ) * 0.5 < 26
    · rw [if_pos hc, List.mem_map] at hpk
      obtain ⟨j, hj, rfl⟩ := hpk
      rfl
    · rw [if_neg hc, List.mem_singleton] at hpk
      rw [hpk]

/-! ## Range bounds for the branch values on the 0.1 mL grid -/

lemma logb_ka_bounds :
    (-5:ℝ) ≤ Real.logb 10 (1.8e-5 : ℝ) ∧ Real.logb 10 (1.8e-5 : ℝ) ≤ -4 := by
  have h1 : ((10:ℝ)^(-5:ℤ)) ≤ (1.8e-5 : ℝ) := by norm_num
  have h2 : (1.8e-5 : ℝ) ≤ (10:ℝ)^(-4:ℤ) := by norm_num
  have hb1 := zpow_le_logb10 h1
  have hb2 := logb10_le_zpow (by norm_num) h2
  push_cast at hb1 hb2
  exact ⟨hb1, hb2⟩

lemma pre_value_bound {v : ℝ} (h0 : 0 ≤ v) (h1 : v * 0.1 ≤ 2.49) :
    1 ≤ -Real.logb 10 ((2.5 - v * 0.1) / (25 + v)) ∧
    -Real.logb 10 ((2.5 - v * 0.1) / (25 + v)) ≤ 4 := by
  have hd : (0:ℝ) < 25 + v := by linarith
  have hxl : (10:ℝ)^(-4:ℤ) ≤ (2.5 - v * 0.1) / (25 + v) := by
    rw [show ((10:ℝ)^(-4:ℤ)) = 1/10000 by norm_num, le_div_iff hd]
    nlinarith
  have hxu : (2.5 - v * 0.1) / (25 + v) ≤ (10:ℝ)^(-1:ℤ) := by
    rw [show ((10:ℝ)^(-1:ℤ)) = 1/10 by norm_num, div_le_iff hd]
    nlinarith
  have hb1 := zpow_le_logb10 hxl
  have hb2 := logb10_le_zpow (lt_of_lt_of_le (ten_zpow_pos _) hxl) hxu
  push_cast at hb1 hb2
  constructor <;> linarith

lemma post_value_bound {v : ℝ} (h1 : 2.51 ≤ v * 0.1) (h2 : v ≤ 50) :
    10 ≤ 14 + Real.logb 10 ((v * 0.1 - 2.5) / (25 + v)) ∧
    14 + Real.logb 10 ((v * 0.1 - 2.5) / (25 + v)) ≤ 14 := by
  have hd : (0:ℝ) < 25 + v := by nlinarith
  have hxl : (10:ℝ)^(-4:ℤ) ≤ (v * 0.1 - 2.5) / (25 + v) := by
    rw [show ((10:ℝ)^(-4:ℤ)) = 1/10000 by norm_num, le_div_iff hd]
    nlinarith
  have hxu : (v * 0.1 - 2.5) / (25 + v) ≤ (10:ℝ)^(0:ℤ) := by
    rw [show ((10:ℝ)^(0:ℤ)) = 1 by norm_num, div_le_iff hd]
    nlinarith
  have hb1 := zpow_le_logb10 hxl
  have hb2 := logb10_le_zpow (lt_of_lt_of_le (ten_zpow_pos _) hxl) hxu
  push_cast at hb1 hb2
  constructor <;> linarith

lemma buffer_value_bound {v : ℝ} (h1 : 0.01 ≤ v * 0.1) (h2 : v * 0.1 ≤ 2.49) :
    1 ≤ -Real.logb 10 1.8e-5 + Real.logb 10 ((v * 0.1) / (2.5 - v * 0.1)) ∧
    -Real.logb 10 1.8e-5 + Real.logb 10 ((v * 0.1) / (2.5 - v * 0.1)) ≤ 8 := by
  have hd : (0:ℝ) < 2.5 - v * 0.1 := by linarith
  have hxl : (10:ℝ)^(-3:ℤ) ≤ (v * 0.1) / (2.5 - v * 0.1) := by
    rw [show ((10:ℝ)^(-3:ℤ)) = 1/1000 by norm_num, le_div_iff hd]
    nlinarith
  have hxu : (v * 0.1) / (2.5 - v * 0.1) ≤ (10:ℝ)^(3:ℤ) := by
    rw [show ((10:ℝ)^(3:ℤ)) = 1000 by norm_num, div_le_iff hd]
    nlinarith
  have hb1 := zpow_le_logb10 hxl
  have hb2 := logb10_le_zpow (lt_of_lt_of_le (ten_zpow_pos _) hxl) hxu
  push_cast at hb1 hb2
  obtain ⟨hka1, hka2⟩ := logb_ka_bounds
  constructor <;> linarith

lemma hydrolysis_sqrt_bounds :
    (-6:ℝ) ≤ Real.logb 10 (Real.sqrt ((1e-14 / 1.8e-5 * (2.5 / (25 + 25))) : ℝ)) ∧
    Real.logb 10 (Real.sqrt ((1e-14 / 1.8e-5 * (2.5 / (25 + 25))) : ℝ)) ≤ -5 := by
  have htl : ((10:ℝ)^(2 * (-6:ℤ))) ≤ (1e-14 / 1.8e-5 * (2.5 / (25 + 25)) : ℝ) := by
    norm_num
  have htu : (1e-14 / 1.8e-5 * (2.5 / (25 + 25)) : ℝ) ≤ (10:ℝ)^(2 * (-5:ℤ)) := by
    norm_num
  have hsl := zpow_le_sqrt htl
  have hsu := sqrt_le_zpow htu
  have hb1 := zpow_le_logb10 hsl
  have hb2 := logb10_le_zpow (lt_of_lt_of_le (ten_zpow_pos _) hsl) hsu
  push_cast at hb1 hb2
  exact ⟨hb1, hb2⟩

lemma weak_base_post_value_bound {v : ℝ} (h1 : 2.51 ≤ v * 0.1) (h2 : v ≤ 50) :
    6 ≤ 14 + Real.logb 10 1.8e-5 + Real.logb 10 ((v * 0.1 - 2.5) / 2.5) ∧
    14 + Real.logb 10 1.8e-5 + Real.logb 10 ((v * 0.1 - 2.5) / 2.5) ≤ 10 := by
  have hxl : (10:ℝ)^(-3:ℤ) ≤ (v * 0.1 - 2.5) / 2.5 := by
    rw [show ((10:ℝ)^(-3:ℤ)) = 1/1000 by norm_num,
       le_div_iff (by norm_num : (0:ℝ) < 2.5)]
    nlinarith
  have hxu : (v * 0.1 - 2.5) / 2.5 ≤ (10:ℝ)^(0:ℤ) := by
    rw [show ((10:ℝ)^(0:ℤ)) = 1 by norm_num,
       div_le_iff (by norm_num : (0:ℝ) < 2.5)]
    nlinarith
  have hb1 := zpow_le_logb10 hxl
  have hb2 := logb10_le_zpow (lt_of_lt_of_le (ten_zpow_pos _) hxl) hxu
  push_cast at hb1 hb2
  obtain ⟨hka1, hka2⟩ := logb_ka_bounds
  constructor <;> linarith

lemma neg_logb_tenth : -Real.logb 10 (0.1:ℝ) = 1 := by
  rw [show (0.1:ℝ) = (10:ℝ)^(-1:ℤ) by norm_num, logb10_zpow]
  norm_num

/-- C6 counterexample: the in-range volume `1e-10` (not on the 0.1 mL UI
grid) with weak acid and strong base makes the buffer formula return a
pH below 0. -/
theorem c6_counterexample :
    (0:ℝ) ≤ 1e-10 ∧ (1e-10:ℝ) ≤ 50 ∧
    calculatePH 1e-10 .weak .strong < 0 := by
  refine ⟨by norm_num, by norm_num, ?_⟩
  rw [ph_ws_buffer (by norm_num) (by norm_num)]
  have hr_pos : (0:ℝ) < (1e-10 * 0.1) / (2.5 - 1e-10 * 0.1) := by norm_num
  have hr_lt : ((1e-10 * 0.1) / (2.5 - 1e-10 * 0.1) : ℝ) < (10:ℝ)^(-10:ℤ) := by
    rw [div_lt_iff (by norm_num : (0:ℝ) < 2.5 - 1e-10 * 0.1)]
    norm_num
  have hlog := logb10_lt_zpow hr_pos hr_lt
  push_cast at hlog
  obtain ⟨hka1, hka2⟩ := logb_ka_bounds
  linarith

set_option maxHeartbeats 1000000 in
/-- C6 (amended): for every volume on the UI's 0.1 mL grid inside
`[0, 50]` (volumes `k * 0.1` with `k ≤ 500`) and every strength
combination, the computed pH lies within `[0, 14]`.  (Off the grid the
bound fails, see the counterexample.) -/
theorem c6_bounded_amended (k : ℕ) (hk : k ≤ 500) (a b : ElectrolyteType) :
    0 ≤ calculatePH ((k:ℝ) * 0.1) a b ∧ calculatePH ((k:ℝ) * 0.1) a b ≤ 14 := by
  have hk0 : (0:ℝ) ≤ (k:ℝ) * 0.1 := by positivity
  have hk50 : (k:ℝ) * 0.1 ≤ 50 := by
    have : (k:ℝ) ≤ 500 := by exact_mod_cast hk
    nlinarith
  rcases lt_trichotomy k 250 with hlt | heq | hgt
  · have hk249 : (k:ℝ) ≤ 249 := by exact_mod_cast Nat.lt_succ_iff.mp hlt
    have hpre : ((k:ℝ) * 0.1) * 0.1 ≤ 2.49 := by nlinarith
    have hlt25 : ((k:ℝ) * 0.1) * 0.1 < 2.5 := by nlinarith
    cases a <;> cases b
    · rw [ph_ss_pre hlt25]
      have hb := pre_value_bound hk0 hpre
      exact ⟨by linarith [hb.1], by linarith [hb.2]⟩
    · rcases Nat.eq_zero_or_pos k with hz | hkpos
      · subst hz
        rw [show (((0:ℕ):ℝ)) * 0.1 = 0 by norm_num, ph_sw_zero, neg_logb_tenth]
        norm_num
      · have hk1 : (1:ℝ) ≤ (k:ℝ) := by exact_mod_cast hkpos
        have hvne : (k:ℝ) * 0.1 ≠ 0 := by
          have : (0:ℝ) < (k:ℝ) * 0.1 := by nlinarith
          exact this.ne'
        rw [ph_sw_pre hvne hlt25]
        have hb := pre_value_bound hk0 hpre
        exact ⟨by linarith [hb.1], by linarith [hb.2]⟩
    · rcases Nat.eq_zero_or_pos k with hz | hkpos
      · subst hz
        rw [show (((0:ℕ):ℝ)) * 0.1 = 0 by norm_num, ph_ws_zero]
        have hb := ph0_weak_acid_bounds
        exact ⟨by linarith [hb.1], by linarith [hb.2]⟩
      · have hk1 : (1:ℝ) ≤ (k:ℝ) := by exact_mod_cast hkpos
        have hvne : (k:ℝ) * 0.1 ≠ 0 := by
          have : (0:ℝ) < (k:ℝ) * 0.1 := by nlinarith
          exact this.ne'
        have h001 : 0.01 ≤ ((k:ℝ) * 0.1) * 0.1 := by nlinarith
        rw [ph_ws_buffer hvne hlt25]
        have hb := buffer_value_bound h001 hpre
        exact ⟨by linarith [hb.1], by linarith [hb.2]⟩
    · rcases Nat.eq_zero_or_pos k with hz | hkpos
      · subst hz
        rw [show (((0:ℕ):ℝ)) * 0.1 = 0 by norm_num, ph_ww_zero]
        have hb := ph0_weak_acid_bounds
        exact ⟨by linarith [hb.1], by linarith [hb.2]⟩
      · have hk1 : (1:ℝ) ≤ (k:ℝ) := by exact_mod_cast hkpos
        have hvne : (k:ℝ) * 0.1 ≠ 0 := by
          have : (0:ℝ) < (k:ℝ) * 0.1 := by nlinarith
          exact this.ne'
        have h001 : 0.01 ≤ ((k:ℝ) * 0.1) * 0.1 := by nlinarith
        rw [ph_ww_buffer hvne hlt25]
        have hb := buffer_value_bound h001 hpre
        exact ⟨by linarith [hb.1], by linarith [hb.2]⟩
  · subst heq
    rw [show (((250:ℕ):ℝ)) * 0.1 = 25 by push_cast; norm_num]
    cases a <;> cases b
    · rw [ph_ss_eq (by norm_num) (by rw [abs_lt]; constructor <;> norm_num)]
      norm_num
    · rw [ph_sw_eq (by norm_num) (by rw [abs_lt]; constructor <;> norm_num)]
      have hb := hydrolysis_sqrt_bounds
      exact ⟨by linarith [hb.2], by linarith [hb.1]⟩
    · rw [ph_ws_eq (by norm_num) (by rw [abs_lt]; constructor <;> norm_num)]
      have hb := hydrolysis_sqrt_bounds
      exact ⟨by linarith [hb.1], by linarith [hb.2]⟩
    · rw [ph_ww_eq (by norm_num) (by rw [abs_lt]; constructor <;> norm_num)]
      rw [show ((-Real.logb 10 1.8e-5 + (14 + Real.logb 10 1.8e-5)) / 2 : ℝ) = 7
          by ring]
      norm_num
  · have hk251 : (251:ℝ) ≤ (k:ℝ) := by exact_mod_cast hgt
    have hpost : 2.51 ≤ ((k:ℝ) * 0.1) * 0.1 := by nlinarith
    have hpost9 : 2.5 + 1e-9 ≤ ((k:ℝ) * 0.1) * 0.1 := by nlinarith
    cases a <;> cases b
    · rw [ph_ss_post hpost9]
      have hb := post_value_bound hpost hk50
      exact ⟨by linarith [hb.1], by linarith [hb.2]⟩
    · rw [ph_sw_post hpost9]
      have hb := weak_base_post_value_bound hpost hk50
      exact ⟨by linarith [hb.1], by linarith [hb.2]⟩
    · rw [ph_ws_post hpost9]
      have hb := post_value_bound hpost hk50
      exact ⟨by linarith [hb.1], by linarith [hb.2]⟩
    · rw [ph_ww_post hpost9]
      have hb := weak_base_post_value_bound hpost hk50
      exact ⟨by linarith [hb.1], by linarith [hb.2]⟩

/-- C6 witness: the amended claim applied at grid index 250 (volume
25 mL) with strong acid and strong base. -/
theorem c6_witness :
    0 ≤ calculatePH (((250:ℕ):ℝ) * 0.1) .strong .strong ∧
    calculatePH (((250:ℕ):ℝ) * 0.1) .strong .strong ≤ 14 :=
  c6_bounded_amended 250 (by norm_num) .strong .strong

/-- C9: changing the acid strength or the base strength (to any value)
sets the accumulated titrant volume `addedBaseVol` to 0 in the same state
update. -/
theorem c9_strength_change_resets_volume (s : TitrationState)
    (t : ElectrolyteType) :
    (selectAcidType s t).addedBaseVol = 0 ∧
    (selectBaseType s t).addedBaseVol = 0 :=
  ⟨rfl, rfl⟩

/-- C10: changing the indicator leaves `addedBaseVol`, `acidType` and
`baseType` unchanged. -/
theorem c10_indicator_change_preserves_state (s : TitrationState)
    (i : IndicatorType) :
    (selectIndicator s i).addedBaseVol = s.addedBaseVol ∧
    (selectIndicator s i).acidType = s.acidType ∧
    (selectIndicator s i).baseType = s.baseType :=
  ⟨rfl, rfl, rfl⟩

end Titration
